import Mathlib

/-!
# Verification of rusqlite-es (SQLite/Postgres event-sourcing persistence engine)

Shallow embedding of the repository's source files:
* `src/error.rs` — the error classifier (`SqliteAggregateError` and its `From` conversions),
* `src/event_repository.rs` — `SqliteEventRepository` (event inserts, snapshot
  insert/update, replay streams),
* `src/view_repository.rs` — `SqliteViewRepository` (`update_view`, `load`),
* `src/aggregate_store.rs` — `PostgresSnapshotStore` (`load`, `load_aggregate`,
  `commit`, `peek_at_last_sequence`),
* `src/queries.rs` — `GenericQueryRepository` (`load`).

Databases are modelled as lists of typed rows; the unique indexes on
`(aggregate_type, aggregate_id, sequence)` for events, `(aggregate_type,
aggregate_id)` for snapshots and `view_id` for views are modelled from the
spec's schema section (the repository's `db/init.sql` and `sql_query.rs` are
not part of the sources). Rust `usize` arithmetic that can underflow is
modelled with an explicit checked subtraction (`usizeSub`); a `none` result
marks the debug-mode overflow panic.
-/

namespace RusqliteEs

/-- Opaque stand-in for a `serde_json::Value` payload/metadata document. -/
structure JsonValue where
  raw : String
deriving DecidableEq, Repr

/-- `cqrs_es::persist::SerializedEvent` — an event envelope as handed to the
event repository. -/
structure SerializedEvent where
  aggregate_id : String
  sequence : Nat
  aggregate_type : String
  event_type : String
  event_version : String
  payload : JsonValue
  metadata : JsonValue
deriving DecidableEq, Repr

/-- A row of the `events` table (§6 schema). -/
structure EventRow where
  aggregate_type : String
  aggregate_id : String
  sequence : Nat
  event_type : String
  event_version : String
  payload : JsonValue
  metadata : JsonValue
deriving DecidableEq, Repr

/-- A row of the `snapshots` table (§6 schema): `current_snapshot` is the
stored snapshot version. -/
structure SnapshotRow where
  aggregate_type : String
  aggregate_id : String
  last_sequence : Nat
  current_snapshot : Nat
  payload : JsonValue
deriving DecidableEq, Repr

/-- A row of a view table (§6 schema): keyed by `view_id`. -/
structure ViewRow where
  view_id : String
  version : Nat
  payload : JsonValue
deriving DecidableEq, Repr

/-- The SQLite database state visible to the event repository. -/
structure DbState where
  events : List EventRow
  snapshots : List SnapshotRow
deriving DecidableEq, Repr

/- ## Error classifier (`src/error.rs`) -/

/-- The subset of `rusqlite::ErrorCode` relevant to classification; every
code other than `ConstraintViolation` behaves identically in
`From<rusqlite::Error>`. -/
inductive SqliteErrorCode
  | ConstraintViolation
  | DatabaseBusy
  | DatabaseLocked
  | DiskFull
  | OperationInterrupted
deriving DecidableEq, Repr

/-- `rusqlite::Error`: either a `SqliteFailure` carrying an error code, or
any of the library's other error variants (collapsed into one constructor
since `From<rusqlite::Error>` treats them all the same way). -/
inductive RusqliteError
  | SqliteFailure (code : SqliteErrorCode) (msg : String)
  | OtherVariant (msg : String)
deriving DecidableEq, Repr

/-- `r2d2::Error` — a connection-pool failure (e.g. pool exhaustion
timeout); it carries only a message. -/
structure R2d2Error where
  msg : String
deriving DecidableEq, Repr

/-- `serde_json::error::Category`. -/
inductive SerdeCategory
  | Io
  | Syntax
  | Data
  | Eof
deriving DecidableEq, Repr

/-- `serde_json::Error`, as observed through `classify()`. -/
structure SerdeError where
  category : SerdeCategory
  msg : String
deriving DecidableEq, Repr

/-- The boxed `dyn Error` payload carried inside `SqliteAggregateError`. -/
inductive BoxedError
  | rusqlite (e : RusqliteError)
  | r2d2 (e : R2d2Error)
  | serde (e : SerdeError)
deriving DecidableEq, Repr

/-- `SqliteAggregateError` (src/error.rs). -/
inductive SqliteAggregateError
  | OptimisticLock
  | ConnectionError (e : BoxedError)
  | DeserializationError (e : BoxedError)
  | UnknownError (e : BoxedError)
deriving DecidableEq, Repr

/-- `impl From<rusqlite::Error> for SqliteAggregateError` (src/error.rs:27-39):
a `SqliteFailure` whose code is `ConstraintViolation` becomes
`OptimisticLock`; every other rusqlite error becomes `UnknownError`. -/
def sqliteAggregateErrorFromRusqlite : RusqliteError → SqliteAggregateError
  | .SqliteFailure code msg =>
      if code = .ConstraintViolation then .OptimisticLock
      else .UnknownError (.rusqlite (.SqliteFailure code msg))
  | e => .UnknownError (.rusqlite e)

/-- `impl From<r2d2::Error> for SqliteAggregateError` (src/error.rs:41-46):
every pool error becomes `UnknownError` (the code carries a
`TODO: improve error handling` comment). -/
def sqliteAggregateErrorFromR2d2 (e : R2d2Error) : SqliteAggregateError :=
  .UnknownError (.r2d2 e)

/-- `impl From<serde_json::Error> for SqliteAggregateError`
(src/error.rs:63-74). -/
def sqliteAggregateErrorFromSerde (e : SerdeError) : SqliteAggregateError :=
  match e.category with
  | .Data => .DeserializationError (.serde e)
  | .Syntax => .DeserializationError (.serde e)
  | .Io => .UnknownError (.serde e)
  | .Eof => .UnknownError (.serde e)

/-- `cqrs_es::persist::PersistenceError` (the public error type of the
persisted repositories). -/
inductive PersistenceError
  | OptimisticLockError
  | ConnectionError (e : BoxedError)
  | DeserializationError (e : BoxedError)
  | UnknownError (e : BoxedError)
deriving DecidableEq, Repr

/-- `impl From<SqliteAggregateError> for PersistenceError`
(src/error.rs:76-89). Note that the `DeserializationError` arm produces
`PersistenceError::UnknownError`. -/
def persistenceErrorFromAggregate : SqliteAggregateError → PersistenceError
  | .OptimisticLock => .OptimisticLockError
  | .ConnectionError e => .ConnectionError e
  | .DeserializationError e => .UnknownError e
  | .UnknownError e => .UnknownError e

/-- `cqrs_es::AggregateError` (only the variants targeted by the
conversion in src/error.rs:48-61). -/
inductive AggregateError
  | AggregateConflict
  | DatabaseConnectionError (e : BoxedError)
  | DeserializationError (e : BoxedError)
  | UnexpectedError (e : BoxedError)
deriving DecidableEq, Repr

/-- `impl From<SqliteAggregateError> for AggregateError`
(src/error.rs:48-61). -/
def aggregateErrorFromSqlite : SqliteAggregateError → AggregateError
  | .OptimisticLock => .AggregateConflict
  | .ConnectionError e => .DatabaseConnectionError e
  | .DeserializationError e => .DeserializationError e
  | .UnknownError e => .UnexpectedError e

/- ## Event repository (`src/event_repository.rs`) -/

/-- Whether an `events` row with the given key is present.
Modelled from the spec: §6 declares a unique index on
`(aggregate_type, aggregate_id, sequence)` (the DDL file `db/init.sql`
is not among the sources). -/
def eventKeyExists (rows : List EventRow) (atype aid : String) (seq : Nat) : Bool :=
  rows.any fun r => r.aggregate_type = atype ∧ r.aggregate_id = aid ∧ r.sequence = seq

/-- Whether a `snapshots` row for the aggregate is present.
Modelled from the spec: §6 declares a unique index on
`(aggregate_type, aggregate_id)`. -/
def snapshotKeyExists (rows : List SnapshotRow) (atype aid : String) : Bool :=
  rows.any fun r => r.aggregate_type = atype ∧ r.aggregate_id = aid

/-- The `events` row written for one `SerializedEvent` by the
`insert_event` statement (bind order at src/event_repository.rs:366-375:
aggregate type from `A::aggregate_type()`, then the envelope's id,
sequence, event type/version, payload, metadata). -/
def eventRowOf (atype : String) (e : SerializedEvent) : EventRow :=
  { aggregate_type := atype
    aggregate_id := e.aggregate_id
    sequence := e.sequence
    event_type := e.event_type
    event_version := e.event_version
    payload := e.payload
    metadata := e.metadata }

/-- Executing the `insert_event` statement against the in-transaction
`events` table: the unique index rejects a duplicate
`(aggregate_type, aggregate_id, sequence)` with a `ConstraintViolation`. -/
def execInsertEvent (tx : List EventRow) (row : EventRow) :
    Except RusqliteError (List EventRow) :=
  if eventKeyExists tx row.aggregate_type row.aggregate_id row.sequence then
    .error (.SqliteFailure .ConstraintViolation "UNIQUE constraint failed")
  else
    .ok (tx ++ [row])

/-- `SqliteEventRepository::persist_events` (src/event_repository.rs:352-379):
inserts each event in order, tracking `current_sequence` as the sequence of
the last event visited; returns the final `current_sequence` together with
the in-transaction table. The first failed insert aborts the loop with the
classified error. -/
def persist_events (atype : String) :
    List EventRow → Nat → List SerializedEvent →
    Except SqliteAggregateError (Nat × List EventRow)
  | tx, cur, [] => .ok (cur, tx)
  | tx, _, e :: rest =>
      match execInsertEvent tx (eventRowOf atype e) with
      | .error err => .error (sqliteAggregateErrorFromRusqlite err)
      | .ok tx2 => persist_events atype tx2 e.sequence rest

/-- `SqliteEventRepository::insert_events` (src/event_repository.rs:224-235):
one transaction around `persist_events`; on error the transaction is
dropped without commit, so the state is unchanged. -/
def insert_events (s : DbState) (atype : String) (events : List SerializedEvent) :
    Except SqliteAggregateError Unit × DbState :=
  match persist_events atype s.events 0 events with
  | .error e => (.error e, s)
  | .ok (_, tx) => (.ok (), { s with events := tx })

/-- `SqliteEventRepository::insert` (src/event_repository.rs:237-268):
inside one transaction, persist the call's events, then insert the snapshot
row `(aggregate_type, aggregate_id, current_sequence, current_snapshot,
payload)`; a pre-existing snapshot row for the aggregate triggers the
unique-index `ConstraintViolation`, classified as `OptimisticLock`, and the
transaction is dropped without commit. -/
def insertSnapshotOp (s : DbState) (atype aid : String) (aggregate_payload : JsonValue)
    (current_snapshot : Nat) (events : List SerializedEvent) :
    Except SqliteAggregateError Unit × DbState :=
  match persist_events atype s.events 0 events with
  | .error e => (.error e, s)
  | .ok (current_sequence, tx) =>
      if snapshotKeyExists s.snapshots atype aid then
        (.error .OptimisticLock, s)
      else
        (.ok (),
          { events := tx
            snapshots := s.snapshots ++
              [{ aggregate_type := atype
                 aggregate_id := aid
                 last_sequence := current_sequence
                 current_snapshot := current_snapshot
                 payload := aggregate_payload }] })

/-- The `update_snapshot` statement (bind order at
src/event_repository.rs:289-297): `SET last_sequence, payload,
current_snapshot` on the rows matching `aggregate_type`, `aggregate_id`
and stored `current_snapshot = current_snapshot - 1`; returns the
affected-row count together with the updated table.
The `WHERE current_snapshot` shape is modelled from the spec (§4.2's
conditional update; `sql_query.rs` is not among the sources), the bound
values are the source's. -/
def snapshotHit (atype aid : String) (current_snapshot : Nat) (r : SnapshotRow) : Bool :=
  r.aggregate_type = atype ∧ r.aggregate_id = aid ∧
    r.current_snapshot = current_snapshot - 1

/-- See `snapshotHit` for the row condition of the conditional update. -/
def execUpdateSnapshot (rows : List SnapshotRow) (atype aid : String)
    (current_sequence : Nat) (aggregate_payload : JsonValue) (current_snapshot : Nat) :
    Nat × List SnapshotRow :=
  ((rows.filter (snapshotHit atype aid current_snapshot)).length,
    rows.map fun r =>
      if snapshotHit atype aid current_snapshot r then
        { r with
            last_sequence := current_sequence
            payload := aggregate_payload
            current_snapshot := current_snapshot }
      else r)

/-- `SqliteEventRepository::update` (src/event_repository.rs:270-307):
inside one transaction, persist the call's events, run the conditional
snapshot update, **commit the transaction**, and only then inspect the
affected-row count — an affected-row count other than 1 yields
`OptimisticLock`, but the committed events and snapshot update are already
durable. An error from `persist_events` propagates before the commit, so
in that case the state is unchanged. -/
def updateSnapshotOp (s : DbState) (atype aid : String) (aggregate_payload : JsonValue)
    (current_snapshot : Nat) (events : List SerializedEvent) :
    Except SqliteAggregateError Unit × DbState :=
  match persist_events atype s.events 0 events with
  | .error e => (.error e, s)
  | .ok (current_sequence, tx) =>
      let upd := execUpdateSnapshot s.snapshots atype aid current_sequence
        aggregate_payload current_snapshot
      let committed : DbState := { events := tx, snapshots := upd.2 }
      match upd.1 with
      | 1 => (.ok (), committed)
      | _ => (.error .OptimisticLock, committed)

/-- `PersistedEventRepository::persist` for `SqliteEventRepository`
(src/event_repository.rs:65-84): no snapshot update routes to
`insert_events`; a snapshot update with `current_snapshot == 1` routes to
`insert`, otherwise to `update`. Errors surface through
`From<SqliteAggregateError> for PersistenceError`. -/
def persist (s : DbState) (atype : String) (events : List SerializedEvent)
    (snapshot_update : Option (String × JsonValue × Nat)) :
    Except PersistenceError Unit × DbState :=
  let lift : Except SqliteAggregateError Unit × DbState →
      Except PersistenceError Unit × DbState := fun r =>
    match r.1 with
    | .error e => (.error (persistenceErrorFromAggregate e), r.2)
    | .ok _ => (.ok (), r.2)
  match snapshot_update with
  | none => lift (insert_events s atype events)
  | some (aggregate_id, aggregate, current_snapshot) =>
      if current_snapshot = 1 then
        lift (insertSnapshotOp s atype aggregate_id aggregate current_snapshot events)
      else
        lift (updateSnapshotOp s atype aggregate_id aggregate current_snapshot events)

/-- Rows of the `events` table belonging to one aggregate. -/
def aggregateRows (s : DbState) (atype aid : String) : List EventRow :=
  s.events.filter fun r => r.aggregate_type = atype ∧ r.aggregate_id = aid

/-- Insertion of a row into a list sorted ascending by `sequence`
(the `ORDER BY sequence` of the select). -/
def insertBySeq (r : EventRow) : List EventRow → List EventRow
  | [] => [r]
  | x :: xs => if r.sequence ≤ x.sequence then r :: x :: xs else x :: insertBySeq r xs

/-- Sorting by `sequence` (insertion sort). -/
def sortBySeq : List EventRow → List EventRow
  | [] => []
  | x :: xs => insertBySeq x (sortBySeq xs)

/-- `SerializedEvent` read back from an `events` row
(`SqliteEventRepository::deser_event`, src/event_repository.rs:309-335). -/
def deser_event (r : EventRow) : SerializedEvent :=
  { aggregate_id := r.aggregate_id
    sequence := r.sequence
    aggregate_type := r.aggregate_type
    event_type := r.event_type
    event_version := r.event_version
    payload := r.payload
    metadata := r.metadata }

/-- `PersistedEventRepository::get_events` for `SqliteEventRepository`
(src/event_repository.rs:28-34 with `select_events`,
src/event_repository.rs:136-153). The select's
`WHERE aggregate_type = ? AND aggregate_id = ? ORDER BY sequence` shape is
modelled from the spec (§4.1/§6; `sql_query.rs` is not among the sources). -/
def get_events (s : DbState) (atype aid : String) : List SerializedEvent :=
  (sortBySeq (aggregateRows s atype aid)).map deser_event

/-- `stream_events` (src/event_repository.rs:111-133): the function builds a
`ReplayStream` channel pair, the producer side of which is never driven (the
background fetch loop is commented out in the source) and is dropped on
return. The model gives the full drain of the returned stream: the list of
items a consumer obtains before the stream ends. Every parameter of the
source function is kept (all are unused, as in the source). -/
def stream_events (_query : String) (_atype _aid : String) (_s : DbState)
    (_channel_size : Nat) : List (Except PersistenceError SerializedEvent) :=
  []

/- ## View repository (`src/view_repository.rs`) -/

/-- `cqrs_es::persist::ViewContext` — the expected-version context handed
to `update_view`. -/
structure ViewContext where
  view_instance_id : String
  version : Nat
deriving DecidableEq, Repr

/-- A view table (one logical view name). -/
structure ViewDb where
  rows : List ViewRow
deriving DecidableEq, Repr

/-- Whether a view row with the given `view_id` is present.
Modelled from the spec: §6 declares a unique index on `view_instance_id`. -/
def viewKeyExists (rows : List ViewRow) (vid : String) : Bool :=
  rows.any fun r => r.view_id = vid

/-- `SqliteViewRepository::update_view` (src/view_repository.rs:114-131).
`version 0` routes to the `insert_sql`
(`INSERT INTO {view} (payload, version, view_id)`), whose unique index on
`view_id` rejects a duplicate with `ConstraintViolation` (classified
`OptimisticLock`, surfaced as `OptimisticLockError`). Any other version
routes to the `update_sql`
(`UPDATE {view} SET payload= ? , version= ? WHERE view_id= ?`) — the WHERE
clause carries **no version condition** and the affected-row count is never
inspected, so this path always returns `Ok`. In both paths the stored
version is `context.version + 1`. -/
def update_view (db : ViewDb) (view_payload : JsonValue) (context : ViewContext) :
    Except PersistenceError Unit × ViewDb :=
  let version := context.version + 1
  match context.version with
  | 0 =>
      if viewKeyExists db.rows context.view_instance_id then
        (.error .OptimisticLockError, db)
      else
        (.ok (),
          { rows := db.rows ++
              [{ view_id := context.view_instance_id
                 version := version
                 payload := view_payload }] })
  | _ =>
      (.ok (),
        { rows := db.rows.map fun r =>
            if r.view_id = context.view_instance_id then
              { r with payload := view_payload, version := version }
            else r })

/- ## Aggregate store (`src/aggregate_store.rs`) and `src/queries.rs` -/

/-- Result of a store call that may also panic (Rust `panic!` or a
debug-mode arithmetic overflow). -/
inductive CallOutcome (ε α : Type)
  | ok (a : α)
  | err (e : ε)
  | panicked
deriving DecidableEq, Repr

/-- Rust `usize` subtraction under the debug profile: `none` marks the
overflow panic raised when the subtrahend exceeds the minuend. -/
def usizeSub (a b : Nat) : Option Nat :=
  if b ≤ a then some (a - b) else none

/-- `PostgresSnapshotStore::peek_at_last_sequence`
(src/aggregate_store.rs:27-32): evaluates
`events.get(events.len() - 1)`; the index computation is a `usize`
subtraction, so for an empty list it underflows (`none` = debug-mode
panic). When the index is in range the matched `Some(event)` yields the
event's sequence, and an out-of-range index yields 0. -/
def peek_at_last_sequence (events : List SerializedEvent) : Option Nat :=
  match usizeSub events.length 1 with
  | none => none
  | some i =>
      some (match events[i]? with
            | none => 0
            | some event => event.sequence)

/-- `PostgresSnapshotStore::load` (src/aggregate_store.rs:46-55): the
repository fetch's outcome is passed in (the Postgres `EventRepository` is
outside the sources); an `Err` is swallowed into `Default::default()` —
the empty event list. -/
def postgresStoreLoad
    (fetch : Except SqliteAggregateError (List SerializedEvent)) :
    List SerializedEvent :=
  match fetch with
  | .ok val => val
  | .error _ => []

/-- `PostgresSnapshotStoreAggregateContext` (src/aggregate_store.rs:101-115),
with the aggregate state kept as its serialized document. -/
structure AggregateContext where
  aggregate_id : String
  aggregate : JsonValue
  current_sequence : Nat
  current_snapshot : Nat
deriving DecidableEq, Repr

/-- `PostgresSnapshotStore::load_aggregate` (src/aggregate_store.rs:56-74):
an `Ok(Some(snapshot))` is returned as-is, an `Ok(None)` becomes the
default context (sequence and snapshot version 0), and an `Err` hits
`panic!`. -/
def postgresStoreLoadAggregate (aggregate_id : String)
    (fetch : Except SqliteAggregateError (Option AggregateContext)) :
    CallOutcome SqliteAggregateError AggregateContext :=
  match fetch with
  | .ok (some snapshot) => .ok snapshot
  | .ok none =>
      .ok { aggregate_id := aggregate_id
            aggregate := ⟨""⟩
            current_sequence := 0
            current_snapshot := 0 }
  | .error _ => .panicked

/-- `GenericQueryRepository::load` (src/queries.rs:104-130): a query error
hits `panic!`; a row whose payload fails to deserialize invokes the
optional error handler and returns `None` (the same value as "no row").
The backend interaction is abstracted into its outcome: `queryResult` is
`Err` on a connection/query failure, `Ok none` when no row matches, and
`Ok (some payload)` otherwise; `decode` is the `serde_json::from_value`
outcome on that payload. -/
def genericQueryLoad (queryResult : Except RusqliteError (Option JsonValue))
    (decode : JsonValue → Except SerdeError JsonValue) :
    CallOutcome SqliteAggregateError (Option JsonValue) :=
  match queryResult with
  | .error _ => .panicked
  | .ok none => .ok none
  | .ok (some payload) =>
      match decode payload with
      | .ok view => .ok (some view)
      | .error _ => .ok none

/-- A domain event as handed to `EventStore::commit`
(src/aggregate_store.rs:76-98) before wrapping: the serializer's view of
`A::Event` plus the envelope fields the wrapping step attaches. -/
structure DomainEventData where
  event_type : String
  event_version : String
  payload : JsonValue
deriving DecidableEq, Repr

/-- `EventStore::wrap_events` as invoked at src/aggregate_store.rs:86.
Modelled from the spec: the method lives in the external `cqrs_es` crate;
§4.1 — "Assigns each new event the next sequence number starting at
`expected_starting_sequence + 1`". -/
def wrap_events (atype aid : String) :
    Nat → List DomainEventData → JsonValue → List SerializedEvent
  | _, [], _ => []
  | current_sequence, e :: rest, metadata =>
      { aggregate_id := aid
        sequence := current_sequence + 1
        aggregate_type := atype
        event_type := e.event_type
        event_version := e.event_version
        payload := e.payload
        metadata := metadata } ::
        wrap_events atype aid (current_sequence + 1) rest metadata

/-- `SnapshotRepository::insert` as invoked at src/aggregate_store.rs:91.
Modelled from the spec: the Postgres `SnapshotRepository` is outside the
sources; §4.2 — an insert that "fails as Conflict if a row already exists",
storing `snapshot_version = 1` and the given `last_sequence`. -/
def snapshotRepoInsert (s : DbState) (atype aid : String)
    (aggregate_payload : JsonValue) (last_sequence version : Nat) :
    Except SqliteAggregateError Unit × DbState :=
  if snapshotKeyExists s.snapshots atype aid then
    (.error .OptimisticLock, s)
  else
    (.ok (),
      { s with snapshots := s.snapshots ++
          [{ aggregate_type := atype
             aggregate_id := aid
             last_sequence := last_sequence
             current_snapshot := version
             payload := aggregate_payload }] })

/-- `SnapshotRepository::update` as invoked at src/aggregate_store.rs:93
with the context's `current_snapshot + 1`. Modelled from the spec: the
Postgres `SnapshotRepository` is outside the sources; §4.2 — "an update
constrained to rows matching `expected_version`; if the affected-row count
is 0 ... the call reports Conflict. On success the stored
`snapshot_version` becomes `expected_version + 1`" (the argument here is
already the new version, so the constraint is `version - 1`). -/
def snapshotRepoUpdate (s : DbState) (atype aid : String)
    (aggregate_payload : JsonValue) (last_sequence version : Nat) :
    Except SqliteAggregateError Unit × DbState :=
  let upd := execUpdateSnapshot s.snapshots atype aid last_sequence
    aggregate_payload version
  match upd.1 with
  | 1 => (.ok (), { s with snapshots := upd.2 })
  | _ => (.error .OptimisticLock, s)

/-- `EventRepository::insert_events` as invoked at
src/aggregate_store.rs:87. Modelled from the spec: the Postgres
`EventRepository` is outside the sources; §4.1 — all events of one call in
a single transaction against the `events` unique index (the same law the
in-source `SqliteEventRepository::insert_events` implements). -/
def eventRepoInsertEvents (s : DbState) (atype : String)
    (events : List SerializedEvent) : Except SqliteAggregateError Unit × DbState :=
  insert_events s atype events

/-- `PostgresSnapshotStore::commit` (src/aggregate_store.rs:76-98): apply
the events to the context's aggregate (the `Aggregate::apply` fold is the
caller's business logic, passed in as `applyFold`), wrap them with
sequence numbers `current_sequence + 1, ...`, insert them, then peek at
the last wrapped sequence (a possible panic, see
`peek_at_last_sequence`), and finally insert the snapshot (version 1)
when `context.current_sequence == 0`, else update it to
`context.current_snapshot + 1`. -/
def storeCommit (applyFold : JsonValue → List DomainEventData → JsonValue)
    (s : DbState) (atype : String) (context : AggregateContext)
    (events : List DomainEventData) (metadata : JsonValue) :
    CallOutcome SqliteAggregateError (List SerializedEvent) × DbState :=
  match eventRepoInsertEvents s atype
      (wrap_events atype context.aggregate_id context.current_sequence
        events metadata) with
  | (.error e, s1) => (.err e, s1)
  | (.ok _, s1) =>
      match peek_at_last_sequence
          (wrap_events atype context.aggregate_id context.current_sequence
            events metadata) with
      | none => (.panicked, s1)
      | some last_sequence =>
          if context.current_sequence = 0 then
            match snapshotRepoInsert s1 atype context.aggregate_id
                (applyFold context.aggregate events) last_sequence 1 with
            | (.error e, s2) => (.err e, s2)
            | (.ok _, s2) =>
                (.ok (wrap_events atype context.aggregate_id
                  context.current_sequence events metadata), s2)
          else
            match snapshotRepoUpdate s1 atype context.aggregate_id
                (applyFold context.aggregate events) last_sequence
                (context.current_snapshot + 1) with
            | (.error e, s2) => (.err e, s2)
            | (.ok _, s2) =>
                (.ok (wrap_events atype context.aggregate_id
                  context.current_sequence events metadata), s2)

/- ## Shared lemmas -/

theorem eventKeyExists_append (xs ys : List EventRow) (atype aid : String) (seq : Nat) :
    eventKeyExists (xs ++ ys) atype aid seq =
      (eventKeyExists xs atype aid seq || eventKeyExists ys atype aid seq) := by
  simp [eventKeyExists, List.any_append]

theorem eventKeyExists_false_iff (rows : List EventRow) (atype aid : String) (seq : Nat) :
    eventKeyExists rows atype aid seq = false ↔
      ∀ r ∈ rows, ¬(r.aggregate_type = atype ∧ r.aggregate_id = aid ∧ r.sequence = seq) := by
  simp [eventKeyExists, List.any_eq_false]

theorem persist_events_ok_append (atype : String) :
    ∀ (events : List SerializedEvent) (tx0 : List EventRow) (cur c : Nat)
      (tx : List EventRow),
      persist_events atype tx0 cur events = .ok (c, tx) →
      tx = tx0 ++ events.map (eventRowOf atype)
  | [], tx0, cur, c, tx, h => by
      simp [persist_events] at h
      simp [h.2.symm]
  | e :: rest, tx0, cur, c, tx, h => by
      rw [persist_events] at h
      cases hx : execInsertEvent tx0 (eventRowOf atype e) with
      | error err => rw [hx] at h; exact absurd h (by simp)
      | ok tx1 =>
          rw [hx] at h
          have h1 := persist_events_ok_append atype rest tx1 e.sequence c tx h
          have : tx1 = tx0 ++ [eventRowOf atype e] := by
            unfold execInsertEvent at hx
            by_cases hk : eventKeyExists tx0 (eventRowOf atype e).aggregate_type
                (eventRowOf atype e).aggregate_id (eventRowOf atype e).sequence = true
            · rw [if_pos hk] at hx; exact absurd hx (by simp)
            · rw [if_neg hk] at hx
              simpa using hx.symm
          simp [h1, this]

theorem persist_events_ok_last (atype : String) :
    ∀ (events : List SerializedEvent) (tx0 : List EventRow) (cur c : Nat)
      (tx : List EventRow) (e : SerializedEvent),
      events.getLast? = some e →
      persist_events atype tx0 cur events = .ok (c, tx) →
      c = e.sequence
  | [], _, _, _, _, _, hlast, _ => by simp at hlast
  | x :: rest, tx0, cur, c, tx, e, hlast, h => by
      rw [persist_events] at h
      cases hx : execInsertEvent tx0 (eventRowOf atype x) with
      | error err => rw [hx] at h; exact absurd h (by simp)
      | ok tx1 =>
          rw [hx] at h
          cases rest with
          | nil =>
              have he : x = e := by simpa using hlast
              simp [persist_events] at h
              simp [← he, ← h.1]
          | cons y ys =>
              exact persist_events_ok_last atype (y :: ys) tx1 x.sequence c tx e
                (by simpa using hlast) h

theorem persist_events_fresh (atype : String) :
    ∀ (events : List SerializedEvent) (tx0 : List EventRow) (cur : Nat),
      (∀ e ∈ events, eventKeyExists tx0 atype e.aggregate_id e.sequence = false) →
      List.Pairwise
        (fun a b : SerializedEvent =>
          ¬(a.aggregate_id = b.aggregate_id ∧ a.sequence = b.sequence)) events →
      ∃ c, persist_events atype tx0 cur events =
        .ok (c, tx0 ++ events.map (eventRowOf atype))
  | [], tx0, cur, _, _ => ⟨cur, by simp [persist_events]⟩
  | e :: rest, tx0, cur, hfresh, hpw => by
      have hk : eventKeyExists tx0 atype e.aggregate_id e.sequence = false :=
        hfresh e (by simp)
      have hins : execInsertEvent tx0 (eventRowOf atype e) =
          .ok (tx0 ++ [eventRowOf atype e]) := by
        unfold execInsertEvent
        rw [if_neg (by simp [eventRowOf, hk])]
      have hpw' := List.pairwise_cons.mp hpw
      have hfresh' : ∀ e' ∈ rest,
          eventKeyExists (tx0 ++ [eventRowOf atype e]) atype e'.aggregate_id
            e'.sequence = false := by
        intro e' he'
        rw [eventKeyExists_append]
        have h1 := hfresh e' (by simp [he'])
        have h2 : eventKeyExists [eventRowOf atype e] atype e'.aggregate_id
            e'.sequence = false := by
          rw [eventKeyExists_false_iff]
          intro r hr
          simp at hr
          subst hr
          simp [eventRowOf]
          intro hid hseq
          exact hpw'.1 e' he' ⟨hid, hseq⟩
        simp [h1, h2]
      obtain ⟨c, hc⟩ := persist_events_fresh atype rest (tx0 ++ [eventRowOf atype e])
        e.sequence hfresh' hpw'.2
      refine ⟨c, ?_⟩
      rw [persist_events, hins]
      simp [hc]

theorem wrap_events_length (atype aid : String) :
    ∀ (cs : Nat) (events : List DomainEventData) (m : JsonValue),
      (wrap_events atype aid cs events m).length = events.length
  | _, [], _ => rfl
  | cs, _ :: rest, m => by
      rw [wrap_events]
      simpa using wrap_events_length atype aid (cs + 1) rest m

theorem wrap_events_map_seq (atype aid : String) :
    ∀ (cs : Nat) (events : List DomainEventData) (m : JsonValue),
      (wrap_events atype aid cs events m).map (fun e => e.sequence) =
        List.range' (cs + 1) events.length
  | _, [], _ => rfl
  | cs, e :: rest, m => by
      rw [wrap_events]
      simp [List.range'_succ, wrap_events_map_seq atype aid (cs + 1) rest m]

theorem wrap_events_mem (atype aid : String) :
    ∀ (cs : Nat) (events : List DomainEventData) (m : JsonValue)
      (w : SerializedEvent), w ∈ wrap_events atype aid cs events m →
      w.aggregate_id = aid ∧ w.aggregate_type = atype ∧ w.metadata = m ∧
        cs + 1 ≤ w.sequence ∧ w.sequence ≤ cs + events.length
  | _, [], _, _, hw => by simp [wrap_events] at hw
  | cs, e :: rest, m, w, hw => by
      rw [wrap_events] at hw
      rcases List.mem_cons.mp hw with h | h
      · subst h
        refine ⟨rfl, rfl, rfl, Nat.le_refl _, ?_⟩
        simp only [List.length_cons]
        omega
      · obtain ⟨h1, h2, h3, h4, h5⟩ := wrap_events_mem atype aid (cs + 1) rest m w h
        simp only [List.length_cons]
        exact ⟨h1, h2, h3, by omega, by omega⟩

theorem wrap_events_pairwise (atype aid : String) :
    ∀ (cs : Nat) (events : List DomainEventData) (m : JsonValue),
      List.Pairwise
        (fun a b : SerializedEvent =>
          ¬(a.aggregate_id = b.aggregate_id ∧ a.sequence = b.sequence))
        (wrap_events atype aid cs events m)
  | _, [], _ => by simp [wrap_events]
  | cs, e :: rest, m => by
      rw [wrap_events]
      refine List.pairwise_cons.mpr ⟨?_, wrap_events_pairwise atype aid (cs + 1) rest m⟩
      intro w hw hc
      obtain ⟨_, _, _, h4, _⟩ := wrap_events_mem atype aid (cs + 1) rest m w hw
      have hs : cs + 1 = w.sequence := hc.2
      omega

theorem wrap_events_getLast_seq (atype aid : String)
    (cs : Nat) (events : List DomainEventData) (m : JsonValue)
    (hne : events ≠ []) :
    peek_at_last_sequence (wrap_events atype aid cs events m) =
      some (cs + events.length) := by
  have hlen : (wrap_events atype aid cs events m).length = events.length :=
    wrap_events_length atype aid cs events m
  have hpos : 0 < events.length := List.length_pos.mpr hne
  have hseq : ((wrap_events atype aid cs events m).map
      (fun e => e.sequence))[events.length - 1]? = some (cs + events.length) := by
    rw [wrap_events_map_seq]
    rw [List.getElem?_range' _ _ (by omega : events.length - 1 < events.length)]
    congr 1
    omega
  rw [List.getElem?_map] at hseq
  rw [peek_at_last_sequence, usizeSub, hlen, if_pos (by omega)]
  cases hx : (wrap_events atype aid cs events m)[events.length - 1]? with
  | none => rw [hx] at hseq; simp at hseq
  | some w =>
      rw [hx] at hseq
      simp at hseq
      simp [hx, hseq]

theorem insertBySeq_length (r : EventRow) :
    ∀ l : List EventRow, (insertBySeq r l).length = l.length + 1
  | [] => rfl
  | x :: xs => by
      rw [insertBySeq]
      by_cases h : r.sequence ≤ x.sequence
      · rw [if_pos h]
        simp only [List.length_cons]
      · rw [if_neg h]
        simp only [List.length_cons, insertBySeq_length r xs]

theorem sortBySeq_length : ∀ l : List EventRow, (sortBySeq l).length = l.length
  | [] => rfl
  | x :: xs => by
      rw [sortBySeq, insertBySeq_length, sortBySeq_length xs, List.length_cons]

theorem get_events_length (s : DbState) (atype aid : String) :
    (get_events s atype aid).length = (aggregateRows s atype aid).length := by
  simp [get_events, sortBySeq_length]

theorem snapshot_map_no_hit (atype aid : String) (cs cur : Nat) (p : JsonValue)
    (rows : List SnapshotRow)
    (h : (rows.filter (snapshotHit atype aid cs)).length = 0) :
    (execUpdateSnapshot rows atype aid cur p cs).2 = rows := by
  have hall : ∀ r ∈ rows, ¬(snapshotHit atype aid cs r = true) := by
    have := List.length_eq_zero.mp h
    intro r hr hhit
    have : r ∈ rows.filter (snapshotHit atype aid cs) :=
      List.mem_filter.mpr ⟨hr, hhit⟩
    simp_all
  unfold execUpdateSnapshot
  simp only
  have : rows.map (fun r =>
      if snapshotHit atype aid cs r then
        { r with last_sequence := cur, payload := p, current_snapshot := cs }
      else r) = rows.map id := by
    apply List.map_congr_left
    intro r hr
    rw [if_neg (hall r hr)]
    rfl
  rw [this, List.map_id]

theorem filter_length_one_mem {α : Type} (p : α → Bool) (l : List α)
    (h : (l.filter p).length = 1) : ∃ a ∈ l, p a = true := by
  obtain ⟨a, ha⟩ := List.length_eq_one.mp h
  refine ⟨a, ?_, ?_⟩
  · exact List.mem_of_mem_filter (ha ▸ List.mem_singleton_self a)
  · exact (List.mem_filter.mp (ha ▸ List.mem_singleton_self a)).2

theorem wrap_rows_match (atype aid : String) (cs : Nat)
    (events : List DomainEventData) (m : JsonValue) :
    ∀ row ∈ (wrap_events atype aid cs events m).map (eventRowOf atype),
      row.aggregate_type = atype ∧ row.aggregate_id = aid := by
  intro row hrow
  obtain ⟨w, hw, hweq⟩ := List.mem_map.mp hrow
  obtain ⟨hid, _, _, _, _⟩ := wrap_events_mem atype aid cs events m w hw
  subst hweq
  exact ⟨rfl, hid⟩

theorem get_events_append_all_match (evs rows : List EventRow)
    (snaps : List SnapshotRow) (atype aid : String)
    (hall : ∀ r ∈ rows, r.aggregate_type = atype ∧ r.aggregate_id = aid) :
    (get_events ⟨evs ++ rows, snaps⟩ atype aid).length =
      (aggregateRows ⟨evs, snaps⟩ atype aid).length + rows.length := by
  rw [get_events_length]
  unfold aggregateRows
  simp only
  rw [List.filter_append, List.length_append]
  congr 1
  rw [List.filter_eq_self.mpr]
  intro r hr
  simpa using hall r hr

/- ## Claims -/

/-- C5: the error classifier yields Conflict (`OptimisticLock`) exactly when
the underlying SQLite failure carries the `ConstraintViolation` error code;
every other SQLite failure maps to a non-Conflict kind; and an event insert
rejected by the unique index on `(aggregate_type, aggregate_id, sequence)`
surfaces `OptimisticLock` to the caller of `persist_events`. -/
theorem claim_c5_conflict_iff_constraint_violation :
    (∀ e : RusqliteError,
        sqliteAggregateErrorFromRusqlite e = .OptimisticLock ↔
          ∃ msg, e = .SqliteFailure .ConstraintViolation msg) ∧
    (∀ (atype : String) (tx : List EventRow) (cur : Nat)
        (e : SerializedEvent) (rest : List SerializedEvent),
        eventKeyExists tx atype e.aggregate_id e.sequence = true →
        persist_events atype tx cur (e :: rest) = .error .OptimisticLock) := by
  constructor
  · intro e
    cases e with
    | SqliteFailure code msg =>
        cases code <;> simp [sqliteAggregateErrorFromRusqlite]
    | OtherVariant msg => simp [sqliteAggregateErrorFromRusqlite]
  · intro atype tx cur e rest hk
    rw [persist_events]
    unfold execInsertEvent
    rw [if_pos (by simpa [eventRowOf] using hk)]
    simp [sqliteAggregateErrorFromRusqlite]

/-- Witness for C5: a duplicate of the stored sequence 1 is rejected as
`OptimisticLock`. -/
theorem claim_c5_conflict_iff_constraint_violation_witness :
    persist_events "TA" [⟨"TA", "a", 1, "Created", "1.0", ⟨"p1"⟩, ⟨"m"⟩⟩] 0
        [⟨"a", 1, "TA", "Created", "1.0", ⟨"p1"⟩, ⟨"m"⟩⟩] =
      .error .OptimisticLock :=
  claim_c5_conflict_iff_constraint_violation.2 "TA"
    [⟨"TA", "a", 1, "Created", "1.0", ⟨"p1"⟩, ⟨"m"⟩⟩] 0
    ⟨"a", 1, "TA", "Created", "1.0", ⟨"p1"⟩, ⟨"m"⟩⟩ [] (by decide)

/-- C7 (code-bug evidence): `PostgresSnapshotStore::load` converts any
repository failure into the empty event list (a success value, exactly the
conversion the claim rules out), `PostgresSnapshotStore::load_aggregate`
panics on a repository failure, and `GenericQueryRepository::load` panics
on a query failure and converts an undecodable payload into `None`. -/
theorem claim_c7_failures_swallowed_or_panic :
    ∀ (e : SqliteAggregateError) (q : RusqliteError) (p : JsonValue) (d : SerdeError),
      postgresStoreLoad (.error e) = [] ∧
      postgresStoreLoadAggregate "a" (.error e) = .panicked ∧
      genericQueryLoad (.error q) (fun v => .ok v) = .panicked ∧
      genericQueryLoad (.ok (some p)) (fun _ => .error d) = .ok none := by
  intro e q p d
  exact ⟨rfl, rfl, rfl, rfl⟩

/-- C8 (code-bug evidence): every `r2d2` pool failure — pool exhaustion
included — is classified `UnknownError`, never `ConnectionError`, and it
reaches the public boundary as `PersistenceError.UnknownError`. -/
theorem claim_c8_pool_failure_not_connection_error :
    ∀ e : R2d2Error,
      sqliteAggregateErrorFromR2d2 e = .UnknownError (.r2d2 e) ∧
      (∀ b, sqliteAggregateErrorFromR2d2 e ≠ .ConnectionError b) ∧
      persistenceErrorFromAggregate (sqliteAggregateErrorFromR2d2 e) =
        .UnknownError (.r2d2 e) := by
  intro e
  refine ⟨rfl, ?_, rfl⟩
  intro b h
  exact SqliteAggregateError.noConfusion h

/-- C9 counterexample: a serde data-category failure (a corrupt stored
payload) reaches the public `PersistenceError` boundary as `UnknownError`,
not as the `DeserializationError` kind the claim promises. -/
theorem claim_c9_counterexample :
    persistenceErrorFromAggregate
        (sqliteAggregateErrorFromSerde ⟨.Data, "corrupt payload"⟩) =
      .UnknownError (.serde ⟨.Data, "corrupt payload"⟩) ∧
    persistenceErrorFromAggregate
        (sqliteAggregateErrorFromSerde ⟨.Data, "corrupt payload"⟩) ≠
      .DeserializationError (.serde ⟨.Data, "corrupt payload"⟩) := by
  refine ⟨rfl, ?_⟩
  intro h
  exact PersistenceError.noConfusion h

/-- C9 amended: undecodable payloads are classified internally as
`DeserializationError` and the `AggregateError` conversion preserves that
distinction, but the `PersistenceError` conversion used by the public
store operations collapses them into `UnknownError`, so at that boundary
they are indistinguishable from opaque unknown failures. -/
theorem claim_c9_amended_persistence_boundary_collapses_deser :
    ∀ e : SerdeError, (e.category = .Data ∨ e.category = .Syntax) →
      sqliteAggregateErrorFromSerde e = .DeserializationError (.serde e) ∧
      persistenceErrorFromAggregate (sqliteAggregateErrorFromSerde e) =
        .UnknownError (.serde e) ∧
      aggregateErrorFromSqlite (sqliteAggregateErrorFromSerde e) =
        .DeserializationError (.serde e) := by
  intro e he
  have h1 : sqliteAggregateErrorFromSerde e = .DeserializationError (.serde e) := by
    rcases he with h | h <;> simp [sqliteAggregateErrorFromSerde, h]
  rw [h1]
  exact ⟨rfl, rfl, rfl⟩

/-- Witness for C9 amended at a concrete data-category serde failure. -/
theorem claim_c9_amended_witness :
    sqliteAggregateErrorFromSerde ⟨.Data, "bad"⟩ =
        .DeserializationError (.serde ⟨.Data, "bad"⟩) ∧
      persistenceErrorFromAggregate (sqliteAggregateErrorFromSerde ⟨.Data, "bad"⟩) =
        .UnknownError (.serde ⟨.Data, "bad"⟩) ∧
      aggregateErrorFromSqlite (sqliteAggregateErrorFromSerde ⟨.Data, "bad"⟩) =
        .DeserializationError (.serde ⟨.Data, "bad"⟩) :=
  claim_c9_amended_persistence_boundary_collapses_deser ⟨.Data, "bad"⟩ (Or.inl rfl)

/-- C10: with an empty event list, `peek_at_last_sequence` computes
`events.len() - 1` on `usize` with length 0, which underflows (a
debug-profile panic), so `commit` is not total over empty inputs: the whole
commit reaches the panic after its (vacuous) event insert. -/
theorem claim_c10_empty_commit_underflow :
    usizeSub (List.length ([] : List SerializedEvent)) 1 = none ∧
    peek_at_last_sequence [] = none ∧
    ∀ (applyFold : JsonValue → List DomainEventData → JsonValue)
      (s : DbState) (atype : String) (ctx : AggregateContext) (m : JsonValue),
      storeCommit applyFold s atype ctx [] m = (.panicked, s) := by
  refine ⟨rfl, rfl, ?_⟩
  intro applyFold s atype ctx m
  rfl

/-- C4 (code-bug evidence): both replay streams yield no items at all —
the producer loop of `stream_events` is commented out and the feed half of
the channel is dropped on return — while the stored log for the failing
input (the repository's own `event_repositories` test state) holds 2
events that `get_events` does return. -/
theorem claim_c4_replay_stream_yields_nothing :
    (∀ (q atype aid : String) (s : DbState) (n : Nat),
        stream_events q atype aid s n = []) ∧
    (get_events
        ⟨[⟨"TA", "a", 1, "Created", "1.0", ⟨"p1"⟩, ⟨"m"⟩⟩,
          ⟨"TA", "a", 2, "Tested", "1.0", ⟨"p2"⟩, ⟨"m"⟩⟩], []⟩
        "TA" "a").length = 2 ∧
    stream_events "SELECT * FROM events" "TA" "a"
        ⟨[⟨"TA", "a", 1, "Created", "1.0", ⟨"p1"⟩, ⟨"m"⟩⟩,
          ⟨"TA", "a", 2, "Tested", "1.0", ⟨"p2"⟩, ⟨"m"⟩⟩], []⟩ 200 = [] := by
  exact ⟨fun _ _ _ _ _ => rfl, by decide, rfl⟩

/-- C3 counterexample: a view stored at version 5 is overwritten by an
`update` carrying expected version 3 (which should conflict and leave the
row unchanged); and an `update` with expected version 3 against an id with
no row at all (0 rows affected) still reports `Ok`, not Conflict. -/
theorem claim_c3_counterexample :
    update_view ⟨[⟨"v1", 5, ⟨"old"⟩⟩]⟩ ⟨"new"⟩ ⟨"v1", 3⟩ =
      (.ok (), ⟨[⟨"v1", 4, ⟨"new"⟩⟩]⟩) ∧
    update_view ⟨[⟨"v1", 5, ⟨"old"⟩⟩]⟩ ⟨"new"⟩ ⟨"v9", 3⟩ =
      (.ok (), ⟨[⟨"v1", 5, ⟨"old"⟩⟩]⟩) := by
  exact ⟨rfl, rfl⟩

/-- C3 amended: with expected version 0 the view update inserts (Conflict
via the unique index when the id already has a row, storing version 1
otherwise); with any non-zero expected version `v` it updates every row
matching `view_instance_id` alone — the WHERE clause carries no version
condition — storing version `v + 1`, never inspects the affected-row
count, and always reports `Ok` (even when 0 rows are affected, in which
case the table is unchanged). -/
theorem claim_c3_view_update_amended :
    ∀ (db : ViewDb) (p : JsonValue) (ctx : ViewContext),
      (ctx.version = 0 →
        (viewKeyExists db.rows ctx.view_instance_id = true →
          update_view db p ctx = (.error .OptimisticLockError, db)) ∧
        (viewKeyExists db.rows ctx.view_instance_id = false →
          update_view db p ctx =
            (.ok (), ⟨db.rows ++ [⟨ctx.view_instance_id, 1, p⟩]⟩))) ∧
      (ctx.version ≠ 0 →
        (update_view db p ctx).1 = .ok () ∧
        (∀ r ∈ (update_view db p ctx).2.rows,
          r.view_id = ctx.view_instance_id →
            r.version = ctx.version + 1 ∧ r.payload = p) ∧
        (viewKeyExists db.rows ctx.view_instance_id = false →
          update_view db p ctx = (.ok (), db))) := by
  intro db p ctx
  constructor
  · intro h0
    cases ctx with
    | mk vid ver =>
        cases h0
        constructor
        · intro hex
          simp [update_view, hex]
        · intro hex
          simp [update_view, hex]
  · intro hne
    cases ctx with
    | mk vid ver =>
        cases ver with
        | zero => exact absurd rfl hne
        | succ n =>
            refine ⟨rfl, ?_, ?_⟩
            · intro r hr hid
              simp [update_view] at hr
              obtain ⟨r0, hr0, hrr⟩ := hr
              by_cases hcase : r0.view_id = vid
              · rw [if_pos (by simpa using hcase)] at hrr
                subst hrr
                exact ⟨rfl, rfl⟩
              · rw [if_neg (by simpa using hcase)] at hrr
                subst hrr
                exact absurd hid hcase
            · intro hex
              have hall : ∀ r ∈ db.rows, ¬(r.view_id = vid) := by
                intro r hr hid
                have : viewKeyExists db.rows vid = true := by
                  rw [viewKeyExists, List.any_eq_true]
                  exact ⟨r, hr, by simp [hid]⟩
                simp [this] at hex
              have hmap : db.rows.map (fun r =>
                  if r.view_id = vid then
                    { r with payload := p, version := n + 1 + 1 } else r) =
                  db.rows.map id := by
                apply List.map_congr_left
                intro r hr
                rw [if_neg (hall r hr)]
                rfl
              simp [update_view, hmap]

/-- Witness for C3 amended: insert path at version 0 on an empty table,
and overwrite path at version 3 against a row stored at version 5. -/
theorem claim_c3_view_update_amended_witness :
    (update_view ⟨[]⟩ ⟨"new"⟩ ⟨"v1", 0⟩ =
        (.ok (), ⟨[⟨"v1", 1, ⟨"new"⟩⟩]⟩)) ∧
    ((update_view ⟨[⟨"v1", 5, ⟨"old"⟩⟩]⟩ ⟨"new"⟩ ⟨"v1", 3⟩).1 = .ok ()) := by
  constructor
  · exact ((claim_c3_view_update_amended ⟨[]⟩ ⟨"new"⟩ ⟨"v1", 0⟩).1 rfl).2 (by decide)
  · exact ((claim_c3_view_update_amended ⟨[⟨"v1", 5, ⟨"old"⟩⟩]⟩ ⟨"new"⟩
      ⟨"v1", 3⟩).2 (by decide)).1

/-- C1 counterexample: starting from a log with one event (sequence 1) and
a snapshot stored at version 2, a `persist` call writing event 2 together
with a snapshot update expecting stored version 3 (parameter 4) reports
Conflict — yet the new event is durably persisted: a subsequent load
returns 2 events where it returned 1 before the failed commit. -/
theorem claim_c1_counterexample :
    (persist ⟨[⟨"TA", "a", 1, "Created", "1.0", ⟨"p1"⟩, ⟨"m"⟩⟩],
              [⟨"TA", "a", 1, 2, ⟨"g"⟩⟩]⟩
        "TA" [⟨"a", 2, "TA", "Tested", "1.0", ⟨"p2"⟩, ⟨"m"⟩⟩]
        (some ("a", ⟨"g2"⟩, 4))).1 = .error .OptimisticLockError ∧
    (get_events
        (persist ⟨[⟨"TA", "a", 1, "Created", "1.0", ⟨"p1"⟩, ⟨"m"⟩⟩],
                  [⟨"TA", "a", 1, 2, ⟨"g"⟩⟩]⟩
          "TA" [⟨"a", 2, "TA", "Tested", "1.0", ⟨"p2"⟩, ⟨"m"⟩⟩]
          (some ("a", ⟨"g2"⟩, 4))).2 "TA" "a").length = 2 ∧
    (get_events ⟨[⟨"TA", "a", 1, "Created", "1.0", ⟨"p1"⟩, ⟨"m"⟩⟩],
                 [⟨"TA", "a", 1, 2, ⟨"g"⟩⟩]⟩ "TA" "a").length = 1 := by
  exact ⟨rfl, by decide, by decide⟩

/-- C1 amended: when the conditional snapshot update matches 0 rows the
call reports Conflict and the snapshot rows are unchanged, but the
transaction has already been committed, so the new events of the failed
call ARE durably persisted (appended to the log) and a subsequent load
returns them; only when the event insert itself fails does the whole
transaction roll back with no change to the database. -/
theorem claim_c1_amended_conflict_still_commits_events :
    (∀ (s : DbState) (atype aid : String) (p : JsonValue) (cs : Nat)
        (events : List SerializedEvent) (cur : Nat) (tx : List EventRow),
        cs ≠ 1 →
        persist_events atype s.events 0 events = .ok (cur, tx) →
        (s.snapshots.filter (snapshotHit atype aid cs)).length = 0 →
        persist s atype events (some (aid, p, cs)) =
          (.error .OptimisticLockError, ⟨tx, s.snapshots⟩) ∧
        tx = s.events ++ events.map (eventRowOf atype)) ∧
    (∀ (s : DbState) (atype aid : String) (p : JsonValue) (cs : Nat)
        (events : List SerializedEvent) (e : SqliteAggregateError),
        cs ≠ 1 →
        persist_events atype s.events 0 events = .error e →
        persist s atype events (some (aid, p, cs)) =
          (.error (persistenceErrorFromAggregate e), s)) := by
  constructor
  · intro s atype aid p cs events cur tx hcs hpe hfilter
    have htx := persist_events_ok_append atype events s.events 0 cur tx hpe
    have hmap := snapshot_map_no_hit atype aid cs cur p s.snapshots hfilter
    refine ⟨?_, htx⟩
    simp only [persist, if_neg hcs]
    unfold updateSnapshotOp
    rw [hpe]
    unfold execUpdateSnapshot
    simp only
    rw [hfilter]
    have hmap' : (execUpdateSnapshot s.snapshots atype aid cur p cs).2 =
        s.snapshots := hmap
    unfold execUpdateSnapshot at hmap'
    simp only at hmap'
    rw [hmap']
    rfl
  · intro s atype aid p cs events e hcs hpe
    simp only [persist, if_neg hcs]
    unfold updateSnapshotOp
    rw [hpe]

/-- Witness for C1 amended at the counterexample's fixture. -/
theorem claim_c1_amended_witness :
    persist ⟨[⟨"TA", "a", 1, "Created", "1.0", ⟨"p1"⟩, ⟨"m"⟩⟩],
             [⟨"TA", "a", 1, 2, ⟨"g"⟩⟩]⟩
        "TA" [⟨"a", 2, "TA", "Tested", "1.0", ⟨"p2"⟩, ⟨"m"⟩⟩]
        (some ("a", ⟨"g2"⟩, 4)) =
      (.error .OptimisticLockError,
        ⟨[⟨"TA", "a", 1, "Created", "1.0", ⟨"p1"⟩, ⟨"m"⟩⟩,
          ⟨"TA", "a", 2, "Tested", "1.0", ⟨"p2"⟩, ⟨"m"⟩⟩],
         [⟨"TA", "a", 1, 2, ⟨"g"⟩⟩]⟩) ∧
    ([⟨"TA", "a", 1, "Created", "1.0", ⟨"p1"⟩, ⟨"m"⟩⟩,
      ⟨"TA", "a", 2, "Tested", "1.0", ⟨"p2"⟩, ⟨"m"⟩⟩] : List EventRow) =
      [⟨"TA", "a", 1, "Created", "1.0", ⟨"p1"⟩, ⟨"m"⟩⟩] ++
        ([⟨"a", 2, "TA", "Tested", "1.0", ⟨"p2"⟩, ⟨"m"⟩⟩] :
          List SerializedEvent).map (eventRowOf "TA") :=
  claim_c1_amended_conflict_still_commits_events.1
    ⟨[⟨"TA", "a", 1, "Created", "1.0", ⟨"p1"⟩, ⟨"m"⟩⟩],
     [⟨"TA", "a", 1, 2, ⟨"g"⟩⟩]⟩
    "TA" "a" ⟨"g2"⟩ 4
    [⟨"a", 2, "TA", "Tested", "1.0", ⟨"p2"⟩, ⟨"m"⟩⟩] 2
    [⟨"TA", "a", 1, "Created", "1.0", ⟨"p1"⟩, ⟨"m"⟩⟩,
     ⟨"TA", "a", 2, "Tested", "1.0", ⟨"p2"⟩, ⟨"m"⟩⟩]
    (by decide) rfl (by decide)

/-- C6: snapshot save through `persist`. The contract passes the NEW
snapshot version as the third component of `snapshot_update`, so an
expected version `v` corresponds to parameter `v + 1` (and
`snapshotHit atype aid (v + 1)` constrains the stored `current_snapshot`
to `(v + 1) - 1 = v`). With expected version 0 (parameter 1) the save
inserts, Conflict exactly when a snapshot row for the aggregate already
exists; with expected version `v ≥ 1` (parameter `v + 1`) it updates only
rows whose stored version equals `v`, reports Conflict when 0 rows are
affected, and on success stores `current_snapshot = v + 1` and
`last_sequence = cur`; `cur` is the sequence of the last (newest) event
written by the call. -/
theorem claim_c6_snapshot_save_versioning :
    ∀ (s : DbState) (atype aid : String) (p : JsonValue) (v : Nat)
      (events : List SerializedEvent) (cur : Nat) (tx : List EventRow),
      persist_events atype s.events 0 events = .ok (cur, tx) →
      ((snapshotKeyExists s.snapshots atype aid = true →
          persist s atype events (some (aid, p, 1)) =
            (.error .OptimisticLockError, s)) ∧
       (snapshotKeyExists s.snapshots atype aid = false →
          persist s atype events (some (aid, p, 1)) =
            (.ok (), ⟨tx, s.snapshots ++ [⟨atype, aid, cur, 1, p⟩]⟩))) ∧
      (1 ≤ v →
        ((s.snapshots.filter (snapshotHit atype aid (v + 1))).length = 0 →
          (persist s atype events (some (aid, p, v + 1))).1 =
            .error .OptimisticLockError) ∧
        ((s.snapshots.filter (snapshotHit atype aid (v + 1))).length = 1 →
          (persist s atype events (some (aid, p, v + 1))).1 = .ok () ∧
          ∃ r ∈ (persist s atype events (some (aid, p, v + 1))).2.snapshots,
            r.aggregate_type = atype ∧ r.aggregate_id = aid ∧
              r.current_snapshot = v + 1 ∧ r.last_sequence = cur ∧
              r.payload = p)) ∧
      (∀ lastEv : SerializedEvent, events.getLast? = some lastEv →
        cur = lastEv.sequence) := by
  intro s atype aid p v events cur tx hpe
  refine ⟨⟨?_, ?_⟩, ?_, ?_⟩
  · intro hex
    simp [persist, insertSnapshotOp, persistenceErrorFromAggregate, hpe, hex]
  · intro hex
    simp [persist, insertSnapshotOp, persistenceErrorFromAggregate, hpe, hex]
  · intro hv
    have hv0 : ¬v = 0 := by omega
    constructor
    · intro hf0
      simp [persist, hv0, updateSnapshotOp, execUpdateSnapshot,
            persistenceErrorFromAggregate, hpe, hf0]
    · intro hf1
      have hres : persist s atype events (some (aid, p, v + 1)) =
          (.ok (),
            ⟨tx, s.snapshots.map fun r =>
              if snapshotHit atype aid (v + 1) r then
                { r with
                    last_sequence := cur
                    payload := p
                    current_snapshot := v + 1 }
              else r⟩) := by
        simp [persist, hv0, updateSnapshotOp, execUpdateSnapshot,
              persistenceErrorFromAggregate, hpe, hf1]
      refine ⟨by rw [hres], ?_⟩
      obtain ⟨r0, hr0mem, hr0hit⟩ :=
        filter_length_one_mem (snapshotHit atype aid (v + 1)) s.snapshots hf1
      have hfields : r0.aggregate_type = atype ∧ r0.aggregate_id = aid ∧
          r0.current_snapshot = v := by
        simpa [snapshotHit] using hr0hit
      refine ⟨{ r0 with
                last_sequence := cur
                payload := p
                current_snapshot := v + 1 }, ?_, ?_, ?_, rfl, rfl, rfl⟩
      · rw [hres]
        simp only
        have : (fun r =>
            if snapshotHit atype aid (v + 1) r then
              { r with
                  last_sequence := cur
                  payload := p
                  current_snapshot := v + 1 }
            else r) r0 =
            { r0 with
                last_sequence := cur
                payload := p
                current_snapshot := v + 1 } := by
          simp [hr0hit]
        rw [← this]
        exact List.mem_map_of_mem _ hr0mem
      · exact hfields.1
      · exact hfields.2.1
  · intro lastEv hlast
    exact persist_events_ok_last atype events s.events 0 cur tx lastEv hlast hpe

/-- Witness for C6: one snapshot stored at version 1, one event written,
save with expected version 1 (parameter 2). -/
theorem claim_c6_snapshot_save_versioning_witness :
    ((persist ⟨[], [⟨"TA", "a", 0, 1, ⟨"g0"⟩⟩]⟩ "TA"
        [⟨"a", 1, "TA", "Created", "1.0", ⟨"p1"⟩, ⟨"m"⟩⟩]
        (some ("a", ⟨"g1"⟩, 2))).1 = .ok () ∧
      ∃ r ∈ (persist ⟨[], [⟨"TA", "a", 0, 1, ⟨"g0"⟩⟩]⟩ "TA"
          [⟨"a", 1, "TA", "Created", "1.0", ⟨"p1"⟩, ⟨"m"⟩⟩]
          (some ("a", ⟨"g1"⟩, 2))).2.snapshots,
        r.aggregate_type = "TA" ∧ r.aggregate_id = "a" ∧
          r.current_snapshot = 1 + 1 ∧ r.last_sequence = 1 ∧
          r.payload = ⟨"g1"⟩) ∧
    (∀ lastEv : SerializedEvent,
      ([⟨"a", 1, "TA", "Created", "1.0", ⟨"p1"⟩, ⟨"m"⟩⟩] :
        List SerializedEvent).getLast? = some lastEv → 1 = lastEv.sequence) :=
  let base := claim_c6_snapshot_save_versioning
    ⟨[], [⟨"TA", "a", 0, 1, ⟨"g0"⟩⟩]⟩ "TA" "a" ⟨"g1"⟩ 1
    [⟨"a", 1, "TA", "Created", "1.0", ⟨"p1"⟩, ⟨"m"⟩⟩] 1
    [⟨"TA", "a", 1, "Created", "1.0", ⟨"p1"⟩, ⟨"m"⟩⟩] rfl
  ⟨(base.2.1 (by decide)).2 (by decide), base.2.2⟩

/-- C2: with the log of the aggregate ending at sequence `k` (every stored
row of the aggregate has sequence ≤ k and there are exactly `k` of them), a
context carrying `current_sequence = k`, a non-empty list of `N` domain
events, and no concurrent writer (the snapshot side matches the context),
`commit` succeeds, the wrapped events carry exactly the sequence numbers
`k + 1 … k + N` in order, the log afterwards is the old log plus the new
rows, and a load of the aggregate returns exactly `k + N` events. The
second conjunct is the all-or-none law of the single transaction: a failed
`insert_events` leaves the state unchanged. -/
theorem claim_c2_commit_contiguous_sequences :
    (∀ (applyFold : JsonValue → List DomainEventData → JsonValue)
        (s : DbState) (atype : String) (ctx : AggregateContext)
        (events : List DomainEventData) (m : JsonValue) (k N : Nat),
        events.length = N →
        0 < N →
        ctx.current_sequence = k →
        (∀ r ∈ s.events, r.aggregate_type = atype →
          r.aggregate_id = ctx.aggregate_id → r.sequence ≤ k) →
        (aggregateRows s atype ctx.aggregate_id).length = k →
        (k = 0 → snapshotKeyExists s.snapshots atype ctx.aggregate_id = false) →
        (k ≠ 0 → (s.snapshots.filter
            (snapshotHit atype ctx.aggregate_id (ctx.current_snapshot + 1))).length = 1) →
        ∃ s2 : DbState,
          storeCommit applyFold s atype ctx events m =
            (.ok (wrap_events atype ctx.aggregate_id k events m), s2) ∧
          (wrap_events atype ctx.aggregate_id k events m).map
              (fun e => e.sequence) = List.range' (k + 1) N ∧
          s2.events = s.events ++
            (wrap_events atype ctx.aggregate_id k events m).map (eventRowOf atype) ∧
          (get_events s2 atype ctx.aggregate_id).length = k + N) ∧
    (∀ (s : DbState) (atype : String) (events : List SerializedEvent)
        (e : SqliteAggregateError),
        (insert_events s atype events).1 = .error e →
        (insert_events s atype events).2 = s) := by
  constructor
  · intro applyFold s atype ctx events m k N hlen hpos hseqk hbound hcount hsnap0 hsnap1
    subst hseqk
    subst hlen
    have hne : events ≠ [] := by
      intro h
      rw [h] at hpos
      simp at hpos
    have hfresh : ∀ w ∈ wrap_events atype ctx.aggregate_id ctx.current_sequence
        events m, eventKeyExists s.events atype w.aggregate_id w.sequence = false := by
      intro w hw
      obtain ⟨hid, hat, hmeta, hlb, hub⟩ :=
        wrap_events_mem atype ctx.aggregate_id ctx.current_sequence events m w hw
      rw [eventKeyExists_false_iff]
      rintro r hr ⟨h1, h2, h3⟩
      have hr2 : r.aggregate_id = ctx.aggregate_id := by rw [h2, hid]
      have := hbound r hr h1 hr2
      omega
    obtain ⟨c, hc⟩ := persist_events_fresh atype
      (wrap_events atype ctx.aggregate_id ctx.current_sequence events m)
      s.events 0 hfresh
      (wrap_events_pairwise atype ctx.aggregate_id ctx.current_sequence events m)
    have hinsert : eventRepoInsertEvents s atype
        (wrap_events atype ctx.aggregate_id ctx.current_sequence events m) =
        (.ok (), ⟨s.events ++
          (wrap_events atype ctx.aggregate_id ctx.current_sequence events m).map
            (eventRowOf atype), s.snapshots⟩) := by
      unfold eventRepoInsertEvents insert_events
      rw [hc]
    have hpeek := wrap_events_getLast_seq atype ctx.aggregate_id
      ctx.current_sequence events m hne
    have hallmatch := wrap_rows_match atype ctx.aggregate_id
      ctx.current_sequence events m
    have hagg : ∀ snaps : List SnapshotRow,
        aggregateRows ⟨s.events, snaps⟩ atype ctx.aggregate_id =
          aggregateRows s atype ctx.aggregate_id := fun _ => rfl
    by_cases hk : ctx.current_sequence = 0
    · have hsi : snapshotRepoInsert
          ⟨s.events ++
            (wrap_events atype ctx.aggregate_id ctx.current_sequence events m).map
              (eventRowOf atype), s.snapshots⟩
          atype ctx.aggregate_id (applyFold ctx.aggregate events)
          (ctx.current_sequence + events.length) 1 =
          (.ok (), ⟨s.events ++
            (wrap_events atype ctx.aggregate_id ctx.current_sequence events m).map
              (eventRowOf atype),
            s.snapshots ++
              [⟨atype, ctx.aggregate_id,
                ctx.current_sequence + events.length, 1,
                applyFold ctx.aggregate events⟩]⟩) := by
        unfold snapshotRepoInsert
        rw [if_neg (by simp [hsnap0 hk])]
      refine ⟨⟨s.events ++
          (wrap_events atype ctx.aggregate_id ctx.current_sequence events m).map
            (eventRowOf atype),
          s.snapshots ++
            [⟨atype, ctx.aggregate_id,
              ctx.current_sequence + events.length, 1,
              applyFold ctx.aggregate events⟩]⟩, ?_, ?_, rfl, ?_⟩
      · simp only [storeCommit, hinsert, hpeek, if_pos hk, hsi]
      · exact wrap_events_map_seq atype ctx.aggregate_id ctx.current_sequence events m
      · rw [get_events_append_all_match s.events _ _ atype ctx.aggregate_id hallmatch]
        rw [List.length_map,
            wrap_events_length atype ctx.aggregate_id ctx.current_sequence events m]
        rw [hagg, hcount]
    · have h1 : (execUpdateSnapshot s.snapshots atype ctx.aggregate_id
          (ctx.current_sequence + events.length) (applyFold ctx.aggregate events)
          (ctx.current_snapshot + 1)).1 = 1 := hsnap1 hk
      have hsu : snapshotRepoUpdate
          ⟨s.events ++
            (wrap_events atype ctx.aggregate_id ctx.current_sequence events m).map
              (eventRowOf atype), s.snapshots⟩
          atype ctx.aggregate_id (applyFold ctx.aggregate events)
          (ctx.current_sequence + events.length) (ctx.current_snapshot + 1) =
          (.ok (), ⟨s.events ++
            (wrap_events atype ctx.aggregate_id ctx.current_sequence events m).map
              (eventRowOf atype),
            (execUpdateSnapshot s.snapshots atype ctx.aggregate_id
              (ctx.current_sequence + events.length)
              (applyFold ctx.aggregate events)
              (ctx.current_snapshot + 1)).2⟩) := by
        unfold snapshotRepoUpdate
        simp only
        rw [h1]
      refine ⟨⟨s.events ++
          (wrap_events atype ctx.aggregate_id ctx.current_sequence events m).map
            (eventRowOf atype),
          (execUpdateSnapshot s.snapshots atype ctx.aggregate_id
            (ctx.current_sequence + events.length) (applyFold ctx.aggregate events)
            (ctx.current_snapshot + 1)).2⟩, ?_, ?_, rfl, ?_⟩
      · simp only [storeCommit, hinsert, hpeek, if_neg hk, hsu]
      · exact wrap_events_map_seq atype ctx.aggregate_id ctx.current_sequence events m
      · rw [get_events_append_all_match s.events _ _ atype ctx.aggregate_id hallmatch]
        rw [List.length_map,
            wrap_events_length atype ctx.aggregate_id ctx.current_sequence events m]
        rw [hagg, hcount]
  · intro s atype events e herr
    unfold insert_events at herr ⊢
    cases hpe : persist_events atype s.events 0 events with
    | error e2 => rfl
    | ok pr =>
        rw [hpe] at herr
        simp at herr

/-- Witness for C2: an empty store, context at sequence 0, two events;
commit succeeds with sequences 1 and 2 and a load returns 2 events. -/
theorem claim_c2_commit_contiguous_sequences_witness :
    ∃ s2 : DbState,
      storeCommit (fun a _ => a) ⟨[], []⟩ "TA" ⟨"a", ⟨"g"⟩, 0, 0⟩
          [⟨"Created", "1.0", ⟨"p1"⟩⟩, ⟨"Tested", "1.0", ⟨"p2"⟩⟩] ⟨"m"⟩ =
        (.ok (wrap_events "TA" "a" 0
          [⟨"Created", "1.0", ⟨"p1"⟩⟩, ⟨"Tested", "1.0", ⟨"p2"⟩⟩] ⟨"m"⟩), s2) ∧
      (wrap_events "TA" "a" 0
          [⟨"Created", "1.0", ⟨"p1"⟩⟩, ⟨"Tested", "1.0", ⟨"p2"⟩⟩] ⟨"m"⟩).map
        (fun e => e.sequence) = List.range' (0 + 1) 2 ∧
      s2.events = ([] : List EventRow) ++
        (wrap_events "TA" "a" 0
          [⟨"Created", "1.0", ⟨"p1"⟩⟩, ⟨"Tested", "1.0", ⟨"p2"⟩⟩] ⟨"m"⟩).map
          (eventRowOf "TA") ∧
      (get_events s2 "TA" "a").length = 0 + 2 :=
  claim_c2_commit_contiguous_sequences.1 (fun a _ => a) ⟨[], []⟩ "TA"
    ⟨"a", ⟨"g"⟩, 0, 0⟩ [⟨"Created", "1.0", ⟨"p1"⟩⟩, ⟨"Tested", "1.0", ⟨"p2"⟩⟩]
    ⟨"m"⟩ 0 2 rfl (by decide) rfl (by simp) (by decide) (fun _ => rfl)
    (fun h => absurd rfl h)

end RusqliteEs
